import Mathlib

/-!
Verification of the Drips SDK against its specification.

This file shallowly embeds the parts of the SDK exercised by the claims:

* `src/utils.ts` — `destructUserAssetConfigId`, `getAssetIdFromAddress`,
  `getTokenAddressFromAssetId`, and the `DripsReceiverConfig` class
  (constructor, `toUint256`, `fromUint256`);
* `src/DripsSubgraph/DripsSubgraphClient.ts` — `getArgsForSqueezingAllDrips`,
  `getSqueezableSenders`, and `query`.

Modelling conventions: ethers `BigNumber` / `bigint` values are embedded as
`Nat` (every value reachable in the modelled code paths is non-negative and
ethers `BigNumber` arithmetic is arbitrary precision); JavaScript strings on
which the code inspects individual characters are embedded as `List Char`;
opaque identifiers and hashes are embedded as `String`.  Fallible functions
(TypeScript `throw`) return `Except DripsError α`.
-/

set_option maxHeartbeats 1000000

/-- Errors produced through the `DripsErrors` factory
(`src/common/DripsError.ts`, only its constructor identities are relevant
here): each constructor corresponds to the factory method used at the throw
sites in the embedded code, carrying the message arguments built there. -/
inductive DripsError where
  | invalidArgument (message : String) (callerName : String)
  | invalidAddress (message : String)
  | subgraphQueryError (message : String)
deriving DecidableEq

/-- The `DripsReceiverConfig` class of `src/utils.ts`.  Field order follows
the declaration order of the class fields.  `asUint256` is the packed
encoding stored by the constructor. -/
structure DripsReceiverConfig where
  start : Nat
  duration : Nat
  asUint256 : Nat
  amountPerSec : Nat
deriving DecidableEq

/-- `DripsReceiverConfig.toUint256` (`src/utils.ts`): packs the configuration
into a single integer via `shl`/`or` chains on ethers `BigNumber`s
(arbitrary-precision, embedded as `Nat`). -/
def DripsReceiverConfig.toUint256 (config : DripsReceiverConfig) : Nat :=
  let start := config.start
  let duration := config.duration
  let amountPerSec := config.amountPerSec
  let configAsUint256a := amountPerSec
  let configAsUint256b := configAsUint256a <<< 32
  let configAsUint256c := configAsUint256b ||| start
  let configAsUint256d := configAsUint256c <<< 32
  let configAsUint256e := configAsUint256d ||| duration
  configAsUint256e

/-- The `DripsReceiverConfig` constructor (`src/utils.ts`).  In TypeScript,
`duration` and `start` are optional parameters defaulting to `0`; an omitted
argument is modelled by passing `0`.  The constructor first validates
`amountPerSec`, then sets the three data fields and finally computes
`this.asUint256 = toUint256(this)`; since `toUint256` reads only the three
data fields, the model computes it from the partially-built record. -/
def DripsReceiverConfig.create (amountPerSec : Nat) (duration : Nat) (start : Nat) :
    Except DripsError DripsReceiverConfig :=
  if amountPerSec = 0 then
    .error (.invalidArgument
      "Could not create a new DripsReceiverConfig: amountPerSec cannot be 0."
      "DripsReceiverConfig.create()")
  else
    let c : DripsReceiverConfig :=
      { start := start, duration := duration, asUint256 := 0, amountPerSec := amountPerSec }
    .ok { c with asUint256 := DripsReceiverConfig.toUint256 c }

/-- `DripsReceiverConfig.fromUint256` (`src/utils.ts`): unpacks the fields
with `shr`/`and` and rebuilds the configuration through the constructor
(whose TypeScript parameter order is `(amountPerSec, duration, start)`). -/
def DripsReceiverConfig.fromUint256 (dripsConfig : Nat) : Except DripsError DripsReceiverConfig :=
  let config := dripsConfig
  let amountPerSec := config >>> 64
  let duration := config &&& (2 ^ 32 - 1)
  let start := (config >>> 32) &&& (2 ^ 32 - 1)
  DripsReceiverConfig.create amountPerSec duration start

theorem DripsReceiverConfig.toUint256_eq (c : DripsReceiverConfig)
    (hs : c.start < 2 ^ 32) (hd : c.duration < 2 ^ 32) :
    c.toUint256 = c.amountPerSec * 2 ^ 64 + c.start * 2 ^ 32 + c.duration := by
  show (c.amountPerSec <<< 32 ||| c.start) <<< 32 ||| c.duration
      = c.amountPerSec * 2 ^ 64 + c.start * 2 ^ 32 + c.duration
  have h1 : c.amountPerSec <<< 32 ||| c.start = 2 ^ 32 * c.amountPerSec + c.start := by
    rw [Nat.shiftLeft_eq, Nat.mul_comm c.amountPerSec (2 ^ 32)]
    exact (Nat.mul_add_lt_is_or hs _).symm
  rw [h1, Nat.shiftLeft_eq, Nat.mul_comm (2 ^ 32 * c.amountPerSec + c.start) (2 ^ 32),
    ← Nat.mul_add_lt_is_or hd]
  ring

theorem DripsReceiverConfig.create_ok (a d s : Nat) (ha : a ≠ 0) :
    ∃ c, DripsReceiverConfig.create a d s = .ok c
      ∧ c.amountPerSec = a ∧ c.duration = d ∧ c.start = s
      ∧ c.asUint256 = DripsReceiverConfig.toUint256 c := by
  unfold DripsReceiverConfig.create
  rw [if_neg ha]
  exact ⟨_, rfl, rfl, rfl, rfl, rfl⟩

/-- Claim C2: `toUint256` packs the three fields into a single 256-bit
integer: for `start, duration < 2^32` and `amountPerSec < 2^192` the result
equals `amountPerSec * 2^64 + start * 2^32 + duration` and is below `2^256`. -/
theorem toUint256_packs_fields (c : DripsReceiverConfig)
    (hs : c.start < 2 ^ 32) (hd : c.duration < 2 ^ 32) (ha : c.amountPerSec < 2 ^ 192) :
    DripsReceiverConfig.toUint256 c
        = c.amountPerSec * 2 ^ 64 + c.start * 2 ^ 32 + c.duration
      ∧ DripsReceiverConfig.toUint256 c < 2 ^ 256 := by
  refine ⟨DripsReceiverConfig.toUint256_eq c hs hd, ?_⟩
  rw [DripsReceiverConfig.toUint256_eq c hs hd]
  omega

theorem toUint256_packs_fields_witness :
    DripsReceiverConfig.toUint256 ⟨1, 2, 0, 3⟩ = 3 * 2 ^ 64 + 1 * 2 ^ 32 + 2
      ∧ DripsReceiverConfig.toUint256 ⟨1, 2, 0, 3⟩ < 2 ^ 256 :=
  toUint256_packs_fields ⟨1, 2, 0, 3⟩ (by decide) (by decide) (by decide)

/-- Claim C1: round-trip of the codec — for every configuration with
non-zero `amountPerSec` and `start`, `duration` below `2^32`,
`fromUint256 (toUint256 config)` succeeds and returns a configuration whose
`amountPerSec`, `start` and `duration` equal those of the original. -/
theorem fromUint256_toUint256_roundtrip (c : DripsReceiverConfig)
    (ha : c.amountPerSec ≠ 0) (hs : c.start < 2 ^ 32) (hd : c.duration < 2 ^ 32) :
    ∃ c', DripsReceiverConfig.fromUint256 (DripsReceiverConfig.toUint256 c) = .ok c'
      ∧ c'.amountPerSec = c.amountPerSec ∧ c'.start = c.start ∧ c'.duration = c.duration := by
  have hA : DripsReceiverConfig.toUint256 c >>> 64 = c.amountPerSec := by
    rw [DripsReceiverConfig.toUint256_eq c hs hd, Nat.shiftRight_eq_div_pow]
    omega
  have hD : DripsReceiverConfig.toUint256 c &&& (2 ^ 32 - 1) = c.duration := by
    rw [DripsReceiverConfig.toUint256_eq c hs hd, Nat.and_pow_two_sub_one_eq_mod]
    omega
  have hS : (DripsReceiverConfig.toUint256 c >>> 32) &&& (2 ^ 32 - 1) = c.start := by
    rw [DripsReceiverConfig.toUint256_eq c hs hd, Nat.shiftRight_eq_div_pow,
      Nat.and_pow_two_sub_one_eq_mod]
    omega
  obtain ⟨c', hok, h1, h2, h3, _⟩ :=
    DripsReceiverConfig.create_ok (DripsReceiverConfig.toUint256 c >>> 64)
      (DripsReceiverConfig.toUint256 c &&& (2 ^ 32 - 1))
      ((DripsReceiverConfig.toUint256 c >>> 32) &&& (2 ^ 32 - 1)) (by rw [hA]; exact ha)
  exact ⟨c', hok, by rw [h1, hA], by rw [h3, hS], by rw [h2, hD]⟩

theorem fromUint256_toUint256_roundtrip_witness :
    ∃ c', DripsReceiverConfig.fromUint256 (DripsReceiverConfig.toUint256 ⟨1, 2, 0, 3⟩) = .ok c'
      ∧ c'.amountPerSec = 3 ∧ c'.start = 1 ∧ c'.duration = 2 :=
  fromUint256_toUint256_roundtrip ⟨1, 2, 0, 3⟩ (by decide) (by decide) (by decide)

/-- Claim C3: the constructor rejects exactly `amountPerSec = 0` with
`DripsErrors.invalidArgument`; for non-zero `amountPerSec` it returns an
instance whose fields equal the arguments and whose `asUint256` equals
`toUint256` of the instance. -/
theorem create_validates_amountPerSec (a d s : Nat) :
    ((∃ m fn, DripsReceiverConfig.create a d s = .error (.invalidArgument m fn)) ↔ a = 0)
    ∧ (a ≠ 0 → ∃ c, DripsReceiverConfig.create a d s = .ok c
        ∧ c.amountPerSec = a ∧ c.duration = d ∧ c.start = s
        ∧ c.asUint256 = DripsReceiverConfig.toUint256 c) := by
  constructor
  · constructor
    · intro ⟨m, fn, hm⟩
      by_contra hne
      obtain ⟨c, hok, -⟩ := DripsReceiverConfig.create_ok a d s hne
      rw [hok] at hm
      exact Except.noConfusion hm
    · intro h0
      refine ⟨"Could not create a new DripsReceiverConfig: amountPerSec cannot be 0.",
        "DripsReceiverConfig.create()", ?_⟩
      unfold DripsReceiverConfig.create
      rw [if_pos h0]
  · exact DripsReceiverConfig.create_ok a d s

theorem create_validates_amountPerSec_witness :
    ∃ c, DripsReceiverConfig.create 3 2 1 = .ok c
      ∧ c.amountPerSec = 3 ∧ c.duration = 2 ∧ c.start = 1
      ∧ c.asUint256 = DripsReceiverConfig.toUint256 c :=
  (create_validates_amountPerSec 3 2 1).2 (by decide)

/-- JavaScript `String.prototype.split` with a single-character separator
(as used by `destructUserAssetConfigId` in `src/utils.ts`): splits the
character list at every occurrence of `sep`; splitting the empty string
yields `[[]]`, mirroring `"".split(sep) === [""]`. -/
def jsSplit (sep : Char) : List Char → List (List Char)
  | [] => [[]]
  | c :: cs =>
    if c = sep then [] :: jsSplit sep cs
    else
      match jsSplit sep cs with
      | [] => [[c]]
      | t :: ts => (c :: t) :: ts

theorem jsSplit_ne_nil (sep : Char) (s : List Char) : jsSplit sep s ≠ [] := by
  induction s with
  | nil => simp [jsSplit]
  | cons c cs ih =>
    by_cases h : c = sep
    · simp [jsSplit, h]
    · simp only [jsSplit, if_neg h]
      cases hm : jsSplit sep cs <;> simp

theorem jsSplit_head (sep : Char) (s : List Char) :
    (jsSplit sep s).getD 0 [] = s.takeWhile (· != sep) := by
  induction s with
  | nil => rfl
  | cons c cs ih =>
    by_cases h : c = sep
    · simp [jsSplit, h]
    · simp only [jsSplit, if_neg h]
      cases hm : jsSplit sep cs with
      | nil => exact absurd hm (jsSplit_ne_nil sep cs)
      | cons t ts =>
        rw [hm] at ih
        simp only [List.getD_cons_zero] at ih
        simp [List.takeWhile_cons, h, ih]

theorem jsSplit_second (sep : Char) (s : List Char) (hmem : sep ∈ s) :
    (jsSplit sep s).getD 1 [] = ((s.dropWhile (· != sep)).drop 1).takeWhile (· != sep) := by
  induction s with
  | nil => cases hmem
  | cons c cs ih =>
    by_cases h : c = sep
    · subst h
      simp only [jsSplit, if_pos rfl, List.getD_cons_succ]
      simpa [List.dropWhile_cons] using jsSplit_head c cs
    · have hmem' : sep ∈ cs := by
        cases hmem with
        | head => exact absurd rfl h
        | tail _ hm => exact hm
      simp only [jsSplit, if_neg h]
      cases hm : jsSplit sep cs with
      | nil => exact absurd hm (jsSplit_ne_nil sep cs)
      | cons t ts =>
        have ih' := ih hmem'
        rw [hm] at ih'
        simp only [List.getD_cons_succ] at ih' ⊢
        rw [ih']
        simp [List.dropWhile_cons, h]

/-- `destructUserAssetConfigId` (`src/utils.ts`): validates that the
configuration ID is non-empty ("falsy" for strings means empty) and contains
a `'-'`, then returns `split('-')[0]` and `split('-')[1]`. -/
def destructUserAssetConfigId (configId : List Char) :
    Except DripsError (List Char × List Char) :=
  if configId = [] ∨ ¬ (configId.contains '-') then
    .error (.invalidArgument
      ("Could not destruct user asset configuration ID: " ++ String.mk configId
        ++ " is not a valid user asset configuration ID.")
      "destructUserAssetConfigId()")
  else
    .ok ((jsSplit '-' configId).getD 0 [], (jsSplit '-' configId).getD 1 [])

/-- Claim C4: `destructUserAssetConfigId` throws `DripsErrors.invalidArgument`
exactly when the ID is empty or contains no `'-'`; otherwise it returns the
substring before the first `'-'` as `userId` and the substring between the
first and second `'-'` (or to the end when there is no second `'-'`) as
`assetId`. -/
theorem destructUserAssetConfigId_spec (configId : List Char) :
    ((∃ m fn, destructUserAssetConfigId configId = .error (.invalidArgument m fn))
        ↔ (configId = [] ∨ '-' ∉ configId))
    ∧ ('-' ∈ configId →
        destructUserAssetConfigId configId
          = .ok (configId.takeWhile (· != '-'),
              ((configId.dropWhile (· != '-')).drop 1).takeWhile (· != '-'))) := by
  have hcond : (configId = [] ∨ ¬ (configId.contains '-')) ↔ (configId = [] ∨ '-' ∉ configId) := by
    simp [List.contains]
  constructor
  · constructor
    · intro ⟨m, fn, hm⟩
      by_contra hne
      rw [← hcond] at hne
      unfold destructUserAssetConfigId at hm
      rw [if_neg hne] at hm
      exact Except.noConfusion hm
    · intro h
      rw [← hcond] at h
      exact ⟨_, _, by unfold destructUserAssetConfigId; rw [if_pos h]⟩
  · intro hmem
    have hne : ¬ (configId = [] ∨ ¬ (configId.contains '-')) := by
      rw [hcond]
      push_neg
      exact ⟨(by rintro rfl; cases hmem), hmem⟩
    unfold destructUserAssetConfigId
    rw [if_neg hne, jsSplit_head, jsSplit_second '-' configId hmem]

theorem destructUserAssetConfigId_spec_witness :
    destructUserAssetConfigId ['1', '-', '2'] = .ok (['1'], ['2']) :=
  (destructUserAssetConfigId_spec ['1', '-', '2']).2 (by decide)

/-- Lowercase character of a numeric digit `n < 16`, as produced by ethers
`BigNumber.toString` (base 10) and `BigNumber.toHexString` (base 16). -/
def digitCharacter (n : Nat) : Char :=
  if n < 10 then Char.ofNat (48 + n) else Char.ofNat (97 + (n - 10))

/-- Numeric value of a decimal digit character. -/
def charDecimalValue (c : Char) : Nat := c.toNat - 48

/-- Numeric value of a hexadecimal digit character (`BigNumber.from` parses
hex input case-insensitively). -/
def charHexValue (c : Char) : Nat :=
  if 48 ≤ c.toNat ∧ c.toNat ≤ 57 then c.toNat - 48
  else if 97 ≤ c.toNat ∧ c.toNat ≤ 102 then 10 + (c.toNat - 97)
  else if 65 ≤ c.toNat ∧ c.toNat ≤ 70 then 10 + (c.toNat - 65)
  else 0

def isHexDigitChar (c : Char) : Bool :=
  decide ((48 ≤ c.toNat ∧ c.toNat ≤ 57) ∨ (97 ≤ c.toNat ∧ c.toNat ≤ 102)
    ∨ (65 ≤ c.toNat ∧ c.toNat ≤ 70))

/-- `BigNumber.prototype.toString()` on a non-negative value: its decimal
digit string (most significant digit first). -/
def natToDecimalChars (n : Nat) : List Char :=
  if n = 0 then ['0'] else ((Nat.digits 10 n).map digitCharacter).reverse

/-- `BigNumber.from` applied to a decimal digit string. -/
def parseDecimalChars (s : List Char) : Nat :=
  Nat.ofDigits 10 ((s.map charDecimalValue).reverse)

/-- Minimal lowercase hex digit string of a value (most significant first). -/
def natToHexChars (n : Nat) : List Char :=
  if n = 0 then ['0'] else ((Nat.digits 16 n).map digitCharacter).reverse

/-- `BigNumber.prototype.toHexString()`: `"0x"` followed by the hex digits,
left-padded with `'0'` to an even number of digits. -/
def toHexString (n : Nat) : List Char :=
  let ds := natToHexChars n
  let padded := if ds.length % 2 = 1 then '0' :: ds else ds
  '0' :: 'x' :: padded

/-- Numeric value of the digit part of a `"0x…"` hex string. -/
def parseHexChars (s : List Char) : Nat :=
  Nat.ofDigits 16 ((s.map charHexValue).reverse)

/-- `BigNumber.from` applied to a `"0x…"`-prefixed hex string. -/
def bigNumberFromHexChars (s : List Char) : Nat := parseHexChars (s.drop 2)

/-- Address well-formedness enforced by `guardAgainstInvalidAddress`
(`src/common.ts`, via ethers): `"0x"` followed by 40 hex digits.  The EIP-55
checksum test ethers applies to mixed-case input is not modelled; this
predicate accepts a superset of the ethers-valid addresses, so theorems
assuming it cover every ethers-valid address. -/
def isValidAddress (s : List Char) : Bool :=
  decide (s.length = 42) && decide (s.take 2 = ['0', 'x']) && (s.drop 2).all isHexDigitChar

/-- `getAssetIdFromAddress` (`src/utils.ts`): validates the address and
returns `BigNumber.from(erc20TokenAddress).toString()`, the decimal string
of the address's numeric value. -/
def getAssetIdFromAddress (erc20TokenAddress : List Char) : Except DripsError (List Char) :=
  if isValidAddress erc20TokenAddress then
    .ok (natToDecimalChars (bigNumberFromHexChars erc20TokenAddress))
  else
    .error (.invalidAddress
      ("Address " ++ String.mk erc20TokenAddress ++ " is not valid."))

/-- `getTokenAddressFromAssetId` (`src/utils.ts`):
`BigNumber.from(assetId).toHexString()`. -/
def getTokenAddressFromAssetId (assetId : List Char) : List Char :=
  toHexString (parseDecimalChars assetId)

theorem charDecimalValue_digitCharacter : ∀ k, k < 10 → charDecimalValue (digitCharacter k) = k := by
  decide

theorem charHexValue_digitCharacter : ∀ k, k < 16 → charHexValue (digitCharacter k) = k := by
  decide

theorem parse_natToDecimalChars (n : Nat) : parseDecimalChars (natToDecimalChars n) = n := by
  by_cases h : n = 0
  · subst h; decide
  · unfold natToDecimalChars parseDecimalChars
    rw [if_neg h, List.map_reverse, List.reverse_reverse, List.map_map]
    have hdig : (Nat.digits 10 n).map (charDecimalValue ∘ digitCharacter) = Nat.digits 10 n := by
      conv_rhs => rw [← List.map_id (Nat.digits 10 n)]
      apply List.map_congr_left
      intro d hd
      exact charDecimalValue_digitCharacter d (Nat.digits_lt_base (by norm_num) hd)
    rw [hdig, Nat.ofDigits_digits]

theorem parseHexChars_natToHexChars (n : Nat) : parseHexChars (natToHexChars n) = n := by
  by_cases h : n = 0
  · subst h; decide
  · unfold natToHexChars parseHexChars
    rw [if_neg h, List.map_reverse, List.reverse_reverse, List.map_map]
    have hdig : (Nat.digits 16 n).map (charHexValue ∘ digitCharacter) = Nat.digits 16 n := by
      conv_rhs => rw [← List.map_id (Nat.digits 16 n)]
      apply List.map_congr_left
      intro d hd
      exact charHexValue_digitCharacter d (Nat.digits_lt_base (by norm_num) hd)
    rw [hdig, Nat.ofDigits_digits]

theorem parseHexChars_pad (l : List Char) : parseHexChars ('0' :: l) = parseHexChars l := by
  unfold parseHexChars
  have h0 : charHexValue '0' = 0 := by decide
  rw [List.map_cons, h0, List.reverse_cons, Nat.ofDigits_append]
  simp [Nat.ofDigits]

theorem bigNumberFromHex_toHexString (n : Nat) :
    bigNumberFromHexChars (toHexString n) = n := by
  show parseHexChars
      (List.drop 2 ('0' :: 'x' ::
        (if (natToHexChars n).length % 2 = 1 then '0' :: natToHexChars n
         else natToHexChars n))) = n
  by_cases h : (natToHexChars n).length % 2 = 1
  · rw [if_pos h]
    show parseHexChars ('0' :: natToHexChars n) = n
    rw [parseHexChars_pad, parseHexChars_natToHexChars]
  · rw [if_neg h]
    exact parseHexChars_natToHexChars n

/-- Claim C9: asset-ID/token-address round-trip — for every valid ERC20
address string, `getTokenAddressFromAssetId (getAssetIdFromAddress addr)`
yields a hex string that is numerically equal to the original address
(string equality, casing and padding are not claimed). -/
theorem assetId_tokenAddress_roundtrip (addr : List Char) (h : isValidAddress addr = true) :
    ∃ assetId, getAssetIdFromAddress addr = .ok assetId
      ∧ bigNumberFromHexChars (getTokenAddressFromAssetId assetId)
          = bigNumberFromHexChars addr := by
  unfold getAssetIdFromAddress
  rw [if_pos h]
  refine ⟨_, rfl, ?_⟩
  unfold getTokenAddressFromAssetId
  rw [parse_natToDecimalChars]
  exact bigNumberFromHex_toHexString (bigNumberFromHexChars addr)

theorem assetId_tokenAddress_roundtrip_witness :
    ∃ assetId, getAssetIdFromAddress ('0' :: 'x' :: List.replicate 40 '0') = .ok assetId
      ∧ bigNumberFromHexChars (getTokenAddressFromAssetId assetId)
          = bigNumberFromHexChars ('0' :: 'x' :: List.replicate 40 '0') :=
  assetId_tokenAddress_roundtrip ('0' :: 'x' :: List.replicate 40 '0') (by decide)

/-- A `DripsReceiverSeen` entry attached to a `DripsSet` event, restricted
to the fields `getArgsForSqueezingAllDrips` reads (`receiverUserId`,
`config`). -/
structure DripsReceiverSeen where
  receiverUserId : String
  config : Nat
deriving DecidableEq

/-- A `DripsSet` event DTO (`src/DripsSubgraph/types.ts`), restricted to the
fields `getArgsForSqueezingAllDrips` reads. -/
structure DripsSetEvent where
  blockTimestamp : Nat
  assetId : Nat
  receiversHash : String
  dripsHistoryHash : String
  maxEnd : Nat
  dripsReceiverSeenEvents : List DripsReceiverSeen
deriving DecidableEq

/-- A receiver entry of a `DripsHistoryStruct`. -/
structure DripsReceiver where
  userId : String
  config : Nat
deriving DecidableEq

/-- `DripsHistoryStruct` (`src/common/types.ts`). -/
structure DripsHistoryStruct where
  dripsHash : String
  receivers : List DripsReceiver
  updateTime : Nat
  maxEnd : Nat
deriving DecidableEq

/-- `ethers.constants.HashZero`. -/
def HashZero : String :=
  "0x0000000000000000000000000000000000000000000000000000000000000000"

/-- Ordering imposed by the comparator
`(a, b) => Number(b.blockTimestamp) - Number(a.blockTimestamp)`: descending
block timestamp (`Number` is exact below `2^53`, which covers block
timestamps). -/
def byBlockTimestampDesc (a b : DripsSetEvent) : Prop :=
  b.blockTimestamp ≤ a.blockTimestamp

instance : DecidableRel byBlockTimestampDesc := fun a b =>
  inferInstanceAs (Decidable (b.blockTimestamp ≤ a.blockTimestamp))

instance : IsTotal DripsSetEvent byBlockTimestampDesc :=
  ⟨fun a b => (Nat.le_total a.blockTimestamp b.blockTimestamp).symm⟩

instance : IsTrans DripsSetEvent byBlockTimestampDesc :=
  ⟨fun _ _ _ hab hbc => Nat.le_trans hbc hab⟩

/-- The `sort` call of `getArgsForSqueezingAllDrips`: `Array.prototype.sort`
is a stable comparison sort (ES2019), embedded as insertion sort with the
descending-timestamp comparator. -/
def sortByBlockTimestampDesc (dripsSetEvents : List DripsSetEvent) : List DripsSetEvent :=
  List.insertionSort byBlockTimestampDesc dripsSetEvents

/-- The selection loop of `getArgsForSqueezingAllDrips`: walking the
descending-sorted events, every event with
`eventTimestamp >= currentCycleStartDate` is kept; the first older event is
also kept, then the loop breaks.  `currentCycleStart` is the numeric value
of `Utils.Cycle.getInfo(chainId).currentCycleStartDate` (a helper outside
`src/`, so supplied as a parameter). -/
def squeezableDripsSetEvents (currentCycleStart : Nat) :
    List DripsSetEvent → List DripsSetEvent
  | [] => []
  | e :: rest =>
    if currentCycleStart ≤ e.blockTimestamp then
      e :: squeezableDripsSetEvents currentCycleStart rest
    else [e]

/-- The receiver scan of `getArgsForSqueezingAllDrips` marking one event as
squeezable: some `DripsReceiverSeen` entry drips to `userId` and the event's
asset equals the token's asset ID
(`Utils.Asset.getIdFromAddress(tokenAddress)`, a helper outside `src/`,
supplied as the parameter `assetIdOfToken`). -/
def shouldSqueezeEvent (userId : String) (assetIdOfToken : Nat)
    (dripsSetEvent : DripsSetEvent) : Bool :=
  dripsSetEvent.dripsReceiverSeenEvents.any fun receiver =>
    receiver.receiverUserId == userId && dripsSetEvent.assetId == assetIdOfToken

/-- The per-event body of the `map` building the `DripsHistory` objects. -/
def toHistoryItem (userId : String) (assetIdOfToken : Nat)
    (dripsSetEvent : DripsSetEvent) : DripsHistoryStruct :=
  let shouldSqueeze := shouldSqueezeEvent userId assetIdOfToken dripsSetEvent
  { dripsHash := if shouldSqueeze then HashZero else dripsSetEvent.receiversHash
    receivers :=
      if shouldSqueeze then
        dripsSetEvent.dripsReceiverSeenEvents.map fun r =>
          { userId := r.receiverUserId, config := r.config }
      else []
    updateTime := dripsSetEvent.blockTimestamp
    maxEnd := dripsSetEvent.maxEnd }

/-- The tuple returned by `getArgsForSqueezingAllDrips`:
`[userId, tokenAddress, senderId, historyHash, dripsHistory]`. -/
structure SqueezeArgs where
  userId : String
  tokenAddress : String
  senderId : String
  historyHash : String
  dripsHistory : List DripsHistoryStruct
deriving DecidableEq

/-- `getArgsForSqueezingAllDrips` (`src/DripsSubgraph/DripsSubgraphClient.ts`).
The subgraph fetch is abstracted into the `dripsSetEvents` input; see
`squeezableDripsSetEvents` and `shouldSqueezeEvent` for the
`currentCycleStart` / `assetIdOfToken` parameters. -/
def getArgsForSqueezingAllDrips (userId senderId tokenAddress : String)
    (assetIdOfToken currentCycleStart : Nat)
    (dripsSetEvents : List DripsSetEvent) : SqueezeArgs :=
  let sorted := sortByBlockTimestampDesc dripsSetEvents
  let squeezable := squeezableDripsSetEvents currentCycleStart sorted
  let historyHash :=
    if 1 < squeezable.length then
      ((squeezable.getLast?).map (·.dripsHistoryHash)).getD HashZero
    else HashZero
  let dripsHistory := (squeezable.map (toHistoryItem userId assetIdOfToken)).reverse
  { userId := userId, tokenAddress := tokenAddress, senderId := senderId,
    historyHash := historyHash, dripsHistory := dripsHistory }

theorem squeezableDripsSetEvents_eq (s : Nat) (l : List DripsSetEvent) :
    squeezableDripsSetEvents s l
      = l.takeWhile (fun e => decide (s ≤ e.blockTimestamp))
        ++ (l.dropWhile (fun e => decide (s ≤ e.blockTimestamp))).take 1 := by
  induction l with
  | nil => rfl
  | cons e rest ih =>
    by_cases h : s ≤ e.blockTimestamp
    · simp [squeezableDripsSetEvents, List.takeWhile_cons, List.dropWhile_cons, h, ih]
    · simp [squeezableDripsSetEvents, List.takeWhile_cons, List.dropWhile_cons, h]

theorem squeezableDripsSetEvents_subset (s : Nat) (l : List DripsSetEvent) :
    ∀ e ∈ squeezableDripsSetEvents s l, e ∈ l := by
  induction l with
  | nil => intro e he; cases he
  | cons a rest ih =>
    intro e he
    simp only [squeezableDripsSetEvents] at he
    by_cases h : s ≤ a.blockTimestamp
    · rw [if_pos h] at he
      rcases List.mem_cons.mp he with h1 | he'
      · rw [h1]; exact List.mem_cons_self a rest
      · exact List.mem_cons_of_mem a (ih e he')
    · rw [if_neg h] at he
      rw [List.mem_singleton.mp he]
      exact List.mem_cons_self a rest

theorem squeezableDripsSetEvents_pairwise {r : DripsSetEvent → DripsSetEvent → Prop}
    (s : Nat) (l : List DripsSetEvent) (h : l.Pairwise r) :
    (squeezableDripsSetEvents s l).Pairwise r := by
  induction l with
  | nil => exact List.Pairwise.nil
  | cons a rest ih =>
    rcases List.pairwise_cons.mp h with ⟨ha, hrest⟩
    simp only [squeezableDripsSetEvents]
    by_cases hc : s ≤ a.blockTimestamp
    · rw [if_pos hc]
      exact List.pairwise_cons.mpr
        ⟨fun x hx => ha x (squeezableDripsSetEvents_subset s rest x hx), ih hrest⟩
    · rw [if_neg hc]
      exact List.pairwise_cons.mpr ⟨fun x hx => absurd hx (List.not_mem_nil x), List.Pairwise.nil⟩

theorem takeWhile_cycle_eq_filter (s : Nat) (l : List DripsSetEvent)
    (h : l.Pairwise byBlockTimestampDesc) :
    l.takeWhile (fun e => decide (s ≤ e.blockTimestamp))
      = l.filter (fun e => decide (s ≤ e.blockTimestamp)) := by
  induction l with
  | nil => rfl
  | cons a rest ih =>
    rcases List.pairwise_cons.mp h with ⟨ha, hrest⟩
    by_cases hc : s ≤ a.blockTimestamp
    · simp [List.takeWhile_cons, List.filter_cons, hc, ih hrest]
    · have hpc : decide (s ≤ a.blockTimestamp) = false := by simp [hc]
      rw [List.takeWhile_cons, List.filter_cons]
      simp only [hpc, Bool.false_eq_true, if_false]
      symm
      rw [List.filter_eq_nil_iff]
      intro x hx
      have hxa : x.blockTimestamp ≤ a.blockTimestamp := ha x hx
      simp only [decide_eq_true_eq]
      omega

theorem dropWhile_cycle_eq_filter (s : Nat) (l : List DripsSetEvent)
    (h : l.Pairwise byBlockTimestampDesc) :
    l.dropWhile (fun e => decide (s ≤ e.blockTimestamp))
      = l.filter (fun e => !decide (s ≤ e.blockTimestamp)) := by
  induction l with
  | nil => rfl
  | cons a rest ih =>
    rcases List.pairwise_cons.mp h with ⟨ha, hrest⟩
    by_cases hc : s ≤ a.blockTimestamp
    · simp [List.dropWhile_cons, List.filter_cons, hc, ih hrest]
    · have hpc : decide (s ≤ a.blockTimestamp) = false := by simp [hc]
      rw [List.dropWhile_cons, List.filter_cons]
      simp only [hpc, Bool.false_eq_true, if_false, Bool.not_false, if_true]
      congr 1
      symm
      rw [List.filter_eq_self]
      intro x hx
      have hxa : x.blockTimestamp ≤ a.blockTimestamp := ha x hx
      simp only [Bool.not_eq_true', decide_eq_false_iff_not]
      omega

/-- Claim C5: event selection of the squeeze-argument builder — the set of
selected events consists of exactly the events whose block timestamp is at
or after the current cycle start, plus (when one exists) a single most
recent event from before the cycle start; the returned `dripsHistory` lists
exactly the selected events, in ascending block-timestamp order. -/
theorem getArgsForSqueezingAllDrips_selection (userId senderId tokenAddress : String)
    (assetIdOfToken currentCycleStart : Nat) (dripsSetEvents : List DripsSetEvent) :
    ∃ extra,
      List.Perm
        (squeezableDripsSetEvents currentCycleStart (sortByBlockTimestampDesc dripsSetEvents))
        (dripsSetEvents.filter (fun e => decide (currentCycleStart ≤ e.blockTimestamp)) ++ extra)
      ∧ ((∀ e ∈ dripsSetEvents, currentCycleStart ≤ e.blockTimestamp) → extra = [])
      ∧ ((∃ e ∈ dripsSetEvents, e.blockTimestamp < currentCycleStart) → extra.length = 1)
      ∧ (∀ m ∈ extra, m ∈ dripsSetEvents ∧ m.blockTimestamp < currentCycleStart
          ∧ ∀ e ∈ dripsSetEvents, e.blockTimestamp < currentCycleStart
            → e.blockTimestamp ≤ m.blockTimestamp)
      ∧ (getArgsForSqueezingAllDrips userId senderId tokenAddress assetIdOfToken
            currentCycleStart dripsSetEvents).dripsHistory
          = ((squeezableDripsSetEvents currentCycleStart
                (sortByBlockTimestampDesc dripsSetEvents)).map
              (toHistoryItem userId assetIdOfToken)).reverse
      ∧ List.Pairwise (fun x y => x.updateTime ≤ y.updateTime)
          (getArgsForSqueezingAllDrips userId senderId tokenAddress assetIdOfToken
            currentCycleStart dripsSetEvents).dripsHistory := by
  have hsort : (sortByBlockTimestampDesc dripsSetEvents).Pairwise byBlockTimestampDesc :=
    List.sorted_insertionSort byBlockTimestampDesc dripsSetEvents
  have hperm : List.Perm (sortByBlockTimestampDesc dripsSetEvents) dripsSetEvents :=
    List.perm_insertionSort byBlockTimestampDesc dripsSetEvents
  refine ⟨((sortByBlockTimestampDesc dripsSetEvents).filter
      (fun e => !decide (currentCycleStart ≤ e.blockTimestamp))).take 1, ?_, ?_, ?_, ?_, rfl, ?_⟩
  · rw [squeezableDripsSetEvents_eq,
      takeWhile_cycle_eq_filter currentCycleStart _ hsort,
      dropWhile_cycle_eq_filter currentCycleStart _ hsort]
    exact List.Perm.append
      (hperm.filter (fun e => decide (currentCycleStart ≤ e.blockTimestamp)))
      (List.Perm.refl _)
  · intro hall
    have : (sortByBlockTimestampDesc dripsSetEvents).filter
        (fun e => !decide (currentCycleStart ≤ e.blockTimestamp)) = [] := by
      rw [List.filter_eq_nil_iff]
      intro x hx
      have := hall x (hperm.mem_iff.mp hx)
      simp only [Bool.not_eq_true', decide_eq_false_iff_not, Decidable.not_not]
      exact this
    rw [this]
    rfl
  · intro ⟨e, he, hlt⟩
    have hmem : e ∈ (sortByBlockTimestampDesc dripsSetEvents).filter
        (fun e => !decide (currentCycleStart ≤ e.blockTimestamp)) := by
      rw [List.mem_filter]
      refine ⟨hperm.mem_iff.mpr he, ?_⟩
      simp only [Bool.not_eq_true', decide_eq_false_iff_not]
      omega
    cases hfl : (sortByBlockTimestampDesc dripsSetEvents).filter
        (fun e => !decide (currentCycleStart ≤ e.blockTimestamp)) with
    | nil => rw [hfl] at hmem; cases hmem
    | cons x xs => rfl
  · intro m hm
    have hmem : m ∈ (sortByBlockTimestampDesc dripsSetEvents).filter
        (fun e => !decide (currentCycleStart ≤ e.blockTimestamp)) :=
      List.mem_of_mem_take hm
    have hml : m ∈ sortByBlockTimestampDesc dripsSetEvents := List.mem_of_mem_filter hmem
    have hmp : m.blockTimestamp < currentCycleStart := by
      have := List.of_mem_filter hmem
      simp only [Bool.not_eq_true', decide_eq_false_iff_not] at this
      omega
    refine ⟨hperm.mem_iff.mp hml, hmp, ?_⟩
    intro e he hlt
    have hef : e ∈ (sortByBlockTimestampDesc dripsSetEvents).filter
        (fun e => !decide (currentCycleStart ≤ e.blockTimestamp)) := by
      rw [List.mem_filter]
      refine ⟨hperm.mem_iff.mpr he, ?_⟩
      simp only [Bool.not_eq_true', decide_eq_false_iff_not]
      omega
    have hpw : ((sortByBlockTimestampDesc dripsSetEvents).filter
        (fun e => !decide (currentCycleStart ≤ e.blockTimestamp))).Pairwise
          byBlockTimestampDesc := hsort.filter _
    cases hfl : (sortByBlockTimestampDesc dripsSetEvents).filter
        (fun e => !decide (currentCycleStart ≤ e.blockTimestamp)) with
    | nil => rw [hfl] at hmem; cases hmem
    | cons x xs =>
      rw [hfl] at hm hef hpw
      have hmx : m = x := List.mem_singleton.mp hm
      subst hmx
      rcases List.mem_cons.mp hef with rfl | he'
      · exact Nat.le_refl _
      · exact (List.pairwise_cons.mp hpw).1 e he'
  · show List.Pairwise _
      (((squeezableDripsSetEvents currentCycleStart
          (sortByBlockTimestampDesc dripsSetEvents)).map
        (toHistoryItem userId assetIdOfToken)).reverse)
    rw [List.pairwise_reverse, List.pairwise_map]
    exact List.Pairwise.imp (fun hab => hab)
      (squeezableDripsSetEvents_pairwise currentCycleStart _ hsort)

theorem getLast_min_timestamp (l : List DripsSetEvent)
    (h : l.Pairwise byBlockTimestampDesc) (m : DripsSetEvent) (hm : l.getLast? = some m) :
    ∀ e ∈ l, m.blockTimestamp ≤ e.blockTimestamp := by
  induction l with
  | nil => cases hm
  | cons a rest ih =>
    rcases List.pairwise_cons.mp h with ⟨ha, hrest⟩
    intro e he
    cases rest with
    | nil =>
      have hma : a = m := by simpa using hm
      rw [List.mem_singleton.mp he, ← hma]
    | cons b rest' =>
      have hm' : (b :: rest').getLast? = some m := by
        rw [← List.getLast?_cons_cons]
        exact hm
      rcases List.mem_cons.mp he with h1 | he'
      · have hmmem : m ∈ b :: rest' := by
          rw [List.getLast?_eq_getLast (b :: rest') (List.cons_ne_nil b rest')] at hm'
          rw [← Option.some.inj hm']
          exact List.getLast_mem _
        rw [h1]
        exact ha m hmmem
      · exact ih hrest hm' e he'

/-- Claim C7: history-hash selection — when more than one event is selected,
`historyHash` is the `dripsHistoryHash` of the oldest selected event (the
minimal block timestamp among the selected ones); with zero or one selected
event it is the zero hash. -/
theorem getArgsForSqueezingAllDrips_historyHash (userId senderId tokenAddress : String)
    (assetIdOfToken currentCycleStart : Nat) (dripsSetEvents : List DripsSetEvent) :
    (1 < (squeezableDripsSetEvents currentCycleStart
          (sortByBlockTimestampDesc dripsSetEvents)).length →
        ∃ m, (squeezableDripsSetEvents currentCycleStart
              (sortByBlockTimestampDesc dripsSetEvents)).getLast? = some m
          ∧ (getArgsForSqueezingAllDrips userId senderId tokenAddress assetIdOfToken
              currentCycleStart dripsSetEvents).historyHash = m.dripsHistoryHash
          ∧ ∀ e ∈ squeezableDripsSetEvents currentCycleStart
              (sortByBlockTimestampDesc dripsSetEvents),
              m.blockTimestamp ≤ e.blockTimestamp)
    ∧ ((squeezableDripsSetEvents currentCycleStart
          (sortByBlockTimestampDesc dripsSetEvents)).length ≤ 1 →
        (getArgsForSqueezingAllDrips userId senderId tokenAddress assetIdOfToken
          currentCycleStart dripsSetEvents).historyHash = HashZero) := by
  have hsort : (sortByBlockTimestampDesc dripsSetEvents).Pairwise byBlockTimestampDesc :=
    List.sorted_insertionSort byBlockTimestampDesc dripsSetEvents
  constructor
  · intro hlen
    have hne : squeezableDripsSetEvents currentCycleStart
        (sortByBlockTimestampDesc dripsSetEvents) ≠ [] := by
      intro h0
      rw [h0] at hlen
      simp at hlen
    obtain ⟨m, hm⟩ : ∃ m, (squeezableDripsSetEvents currentCycleStart
        (sortByBlockTimestampDesc dripsSetEvents)).getLast? = some m :=
      ⟨_, List.getLast?_eq_getLast _ hne⟩
    refine ⟨m, hm, ?_, ?_⟩
    · show (if 1 < (squeezableDripsSetEvents currentCycleStart
            (sortByBlockTimestampDesc dripsSetEvents)).length then
          (((squeezableDripsSetEvents currentCycleStart
              (sortByBlockTimestampDesc dripsSetEvents)).getLast?).map
            (·.dripsHistoryHash)).getD HashZero
        else HashZero) = m.dripsHistoryHash
      rw [if_pos hlen, hm]
      rfl
    · exact getLast_min_timestamp _
        (squeezableDripsSetEvents_pairwise currentCycleStart _ hsort) m hm
  · intro hle
    show (if 1 < (squeezableDripsSetEvents currentCycleStart
          (sortByBlockTimestampDesc dripsSetEvents)).length then
        (((squeezableDripsSetEvents currentCycleStart
            (sortByBlockTimestampDesc dripsSetEvents)).getLast?).map
          (·.dripsHistoryHash)).getD HashZero
      else HashZero) = HashZero
    rw [if_neg (by omega)]

theorem shouldSqueezeEvent_iff (u : String) (aid : Nat) (e : DripsSetEvent) :
    shouldSqueezeEvent u aid e = true
      ↔ ∃ r ∈ e.dripsReceiverSeenEvents, r.receiverUserId = u ∧ e.assetId = aid := by
  simp [shouldSqueezeEvent, List.any_eq_true]

/-- Claim C6: well-formedness of the built history proof — every
`DripsHistoryStruct` in the returned `dripsHistory` arises from a selected
event; a non-zero `dripsHash` forces empty `receivers`, non-empty
`receivers` force the zero `dripsHash`, and `receivers` is non-empty exactly
when the event has a `DripsReceiverSeen` entry for `userId` and the event's
asset matches the token's asset ID. -/
theorem getArgsForSqueezingAllDrips_history_wellformed (userId senderId tokenAddress : String)
    (assetIdOfToken currentCycleStart : Nat) (dripsSetEvents : List DripsSetEvent) :
    ∀ item ∈ (getArgsForSqueezingAllDrips userId senderId tokenAddress assetIdOfToken
        currentCycleStart dripsSetEvents).dripsHistory,
      ∃ e, e ∈ squeezableDripsSetEvents currentCycleStart
          (sortByBlockTimestampDesc dripsSetEvents)
        ∧ item = toHistoryItem userId assetIdOfToken e
        ∧ (item.dripsHash ≠ HashZero → item.receivers = [])
        ∧ (item.receivers ≠ [] → item.dripsHash = HashZero)
        ∧ (item.receivers ≠ []
            ↔ ∃ r ∈ e.dripsReceiverSeenEvents,
                r.receiverUserId = userId ∧ e.assetId = assetIdOfToken) := by
  intro item hitem
  have hmem : item ∈ (squeezableDripsSetEvents currentCycleStart
      (sortByBlockTimestampDesc dripsSetEvents)).map (toHistoryItem userId assetIdOfToken) := by
    rw [← List.mem_reverse]
    exact hitem
  rcases List.mem_map.mp hmem with ⟨e, he, hfe⟩
  subst hfe
  by_cases hsq : shouldSqueezeEvent userId assetIdOfToken e = true
  · have hhash : (toHistoryItem userId assetIdOfToken e).dripsHash = HashZero := by
      simp [toHistoryItem, hsq]
    have hrecv : (toHistoryItem userId assetIdOfToken e).receivers
        = e.dripsReceiverSeenEvents.map
            (fun r => { userId := r.receiverUserId, config := r.config }) := by
      simp [toHistoryItem, hsq]
    refine ⟨e, he, rfl, ?_, ?_, ?_⟩
    · intro hne
      exact absurd hhash hne
    · intro _
      exact hhash
    · constructor
      · intro _
        exact (shouldSqueezeEvent_iff userId assetIdOfToken e).mp hsq
      · intro _
        obtain ⟨r, hr, -⟩ := (shouldSqueezeEvent_iff userId assetIdOfToken e).mp hsq
        rw [hrecv]
        exact List.ne_nil_of_mem (List.mem_map_of_mem _ hr)
  · have hsq' : shouldSqueezeEvent userId assetIdOfToken e = false :=
      Bool.eq_false_iff.mpr hsq
    have hhash : (toHistoryItem userId assetIdOfToken e).dripsHash = e.receiversHash := by
      simp [toHistoryItem, hsq']
    have hrecv : (toHistoryItem userId assetIdOfToken e).receivers = [] := by
      simp [toHistoryItem, hsq']
    refine ⟨e, he, rfl, ?_, ?_, ?_⟩
    · intro _
      exact hrecv
    · intro hne
      exact absurd hrecv hne
    · constructor
      · intro hne
        exact absurd hrecv hne
      · intro hex
        exact absurd ((shouldSqueezeEvent_iff userId assetIdOfToken e).mpr hex) hsq

/-- Concrete subgraph data used by the closed witness instances below. -/
def sampleSeen : DripsReceiverSeen := { receiverUserId := "42", config := 7 }

def sampleEventA : DripsSetEvent :=
  { blockTimestamp := 10, assetId := 9, receiversHash := "0xaa",
    dripsHistoryHash := "0xha", maxEnd := 99,
    dripsReceiverSeenEvents := [sampleSeen] }

def sampleEventB : DripsSetEvent :=
  { blockTimestamp := 2, assetId := 9, receiversHash := "0xbb",
    dripsHistoryHash := "0xhb", maxEnd := 98,
    dripsReceiverSeenEvents := [] }

theorem getArgsForSqueezingAllDrips_selection_witness :
    ∃ extra,
      List.Perm
        (squeezableDripsSetEvents 5 (sortByBlockTimestampDesc [sampleEventA, sampleEventB]))
        ([sampleEventA, sampleEventB].filter (fun e => decide (5 ≤ e.blockTimestamp)) ++ extra)
      ∧ ((∀ e ∈ [sampleEventA, sampleEventB], 5 ≤ e.blockTimestamp) → extra = [])
      ∧ ((∃ e ∈ [sampleEventA, sampleEventB], e.blockTimestamp < 5) → extra.length = 1)
      ∧ (∀ m ∈ extra, m ∈ [sampleEventA, sampleEventB] ∧ m.blockTimestamp < 5
          ∧ ∀ e ∈ [sampleEventA, sampleEventB], e.blockTimestamp < 5
            → e.blockTimestamp ≤ m.blockTimestamp)
      ∧ (getArgsForSqueezingAllDrips "42" "7" "0xtok" 9 5
            [sampleEventA, sampleEventB]).dripsHistory
          = ((squeezableDripsSetEvents 5
                (sortByBlockTimestampDesc [sampleEventA, sampleEventB])).map
              (toHistoryItem "42" 9)).reverse
      ∧ List.Pairwise (fun x y => x.updateTime ≤ y.updateTime)
          (getArgsForSqueezingAllDrips "42" "7" "0xtok" 9 5
            [sampleEventA, sampleEventB]).dripsHistory :=
  getArgsForSqueezingAllDrips_selection "42" "7" "0xtok" 9 5 [sampleEventA, sampleEventB]

theorem getArgsForSqueezingAllDrips_historyHash_witness :
    ∃ m, (squeezableDripsSetEvents 5
          (sortByBlockTimestampDesc [sampleEventA, sampleEventB])).getLast? = some m
      ∧ (getArgsForSqueezingAllDrips "42" "7" "0xtok" 9 5
          [sampleEventA, sampleEventB]).historyHash = m.dripsHistoryHash
      ∧ ∀ e ∈ squeezableDripsSetEvents 5
          (sortByBlockTimestampDesc [sampleEventA, sampleEventB]),
          m.blockTimestamp ≤ e.blockTimestamp :=
  (getArgsForSqueezingAllDrips_historyHash "42" "7" "0xtok" 9 5
    [sampleEventA, sampleEventB]).1 (by decide)

theorem getArgsForSqueezingAllDrips_history_wellformed_witness :
    ∃ e, e ∈ squeezableDripsSetEvents 5 (sortByBlockTimestampDesc [sampleEventA, sampleEventB])
      ∧ toHistoryItem "42" 9 sampleEventA = toHistoryItem "42" 9 e
      ∧ ((toHistoryItem "42" 9 sampleEventA).dripsHash ≠ HashZero
          → (toHistoryItem "42" 9 sampleEventA).receivers = [])
      ∧ ((toHistoryItem "42" 9 sampleEventA).receivers ≠ []
          → (toHistoryItem "42" 9 sampleEventA).dripsHash = HashZero)
      ∧ ((toHistoryItem "42" 9 sampleEventA).receivers ≠ []
          ↔ ∃ r ∈ e.dripsReceiverSeenEvents,
              r.receiverUserId = "42" ∧ e.assetId = 9) :=
  getArgsForSqueezingAllDrips_history_wellformed "42" "7" "0xtok" 9 5
    [sampleEventA, sampleEventB] (toHistoryItem "42" 9 sampleEventA) (by decide)

/-- The JSON-parsed body of a GraphQL response as `query` inspects it:
the query-specific `data` payload and an optional `errors` array
(error entries reduced to their stringified form). -/
structure GraphQlResponseBody (T : Type) where
  data : Option T
  errors : Option (List String)
deriving DecidableEq

/-- An HTTP response as `query` consumes it: `fetch`'s `status` and
`statusText` plus the JSON-parsed body (`resp.json()`); the network call
and JSON parsing are abstracted into this input. -/
structure HttpResponse (T : Type) where
  status : Nat
  statusText : String
  body : GraphQlResponseBody T
deriving DecidableEq

/-- `DripsSubgraphClient.query` (`src/DripsSubgraph/DripsSubgraphClient.ts`):
returns the parsed body when the status is 2xx and the body carries no
errors; otherwise throws `DripsErrors.subgraphQueryError`.  The guard
`responseContent?.errors?.length && responseContent.errors.length > 0`
is presence of `errors` plus truthiness of its length plus `length > 0`. -/
def DripsSubgraphClient.query {T : Type} (resp : HttpResponse T) :
    Except DripsError (GraphQlResponseBody T) :=
  if 200 ≤ resp.status ∧ resp.status ≤ 299 then
    match resp.body.errors with
    | some errs =>
      if errs.length ≠ 0 ∧ 0 < errs.length then
        .error (.subgraphQueryError ("Subgraph query failed: " ++ errs.getD 0 ""))
      else .ok resp.body
    | none => .ok resp.body
  else .error (.subgraphQueryError ("Subgraph query failed: " ++ resp.statusText))

/-- Claim C8: `query` resolves with the parsed response body exactly when
the HTTP status lies in 200–299 and the body's `errors` array is absent or
empty; in every other case it throws `DripsErrors.subgraphQueryError`, and
every error it produces is a `subgraphQueryError`. -/
theorem query_resolves_iff {T : Type} (resp : HttpResponse T) :
    (DripsSubgraphClient.query resp = .ok resp.body
      ↔ (200 ≤ resp.status ∧ resp.status ≤ 299
          ∧ (resp.body.errors = none ∨ resp.body.errors = some [])))
    ∧ (¬ (200 ≤ resp.status ∧ resp.status ≤ 299
          ∧ (resp.body.errors = none ∨ resp.body.errors = some []))
        → ∃ m, DripsSubgraphClient.query resp = .error (.subgraphQueryError m))
    ∧ (∀ err, DripsSubgraphClient.query resp = .error err
        → ∃ m, err = .subgraphQueryError m) := by
  by_cases hs : 200 ≤ resp.status ∧ resp.status ≤ 299
  · cases herr : resp.body.errors with
    | none =>
      refine ⟨?_, ?_, ?_⟩
      · simp [DripsSubgraphClient.query, hs, herr]
      · intro hcon
        exact absurd ⟨hs.1, hs.2, Or.inl rfl⟩ hcon
      · intro err herr2
        rw [show DripsSubgraphClient.query resp = .ok resp.body by
          simp [DripsSubgraphClient.query, hs, herr]] at herr2
        exact Except.noConfusion herr2
    | some errs =>
      cases errs with
      | nil =>
        refine ⟨?_, ?_, ?_⟩
        · simp [DripsSubgraphClient.query, hs, herr]
        · intro hcon
          exact absurd ⟨hs.1, hs.2, Or.inr rfl⟩ hcon
        · intro err herr2
          rw [show DripsSubgraphClient.query resp = .ok resp.body by
            simp [DripsSubgraphClient.query, hs, herr]] at herr2
          exact Except.noConfusion herr2
      | cons e es =>
        have hq : DripsSubgraphClient.query resp
            = .error (.subgraphQueryError
                ("Subgraph query failed: " ++ (e :: es).getD 0 "")) := by
          simp [DripsSubgraphClient.query, hs, herr]
        refine ⟨?_, ?_, ?_⟩
        · rw [hq]
          simp [herr]
        · intro _
          exact ⟨_, hq⟩
        · intro err herr2
          rw [hq] at herr2
          exact ⟨_, (Except.error.inj herr2).symm⟩
  · have hq : DripsSubgraphClient.query resp
        = .error (.subgraphQueryError ("Subgraph query failed: " ++ resp.statusText)) := by
      simp [DripsSubgraphClient.query, hs]
    refine ⟨?_, ?_, ?_⟩
    · rw [hq]
      constructor
      · intro h
        exact Except.noConfusion h
      · intro ⟨h1, h2, _⟩
        exact absurd ⟨h1, h2⟩ hs
    · intro _
      exact ⟨_, hq⟩
    · intro err herr2
      rw [hq] at herr2
      exact ⟨_, (Except.error.inj herr2).symm⟩

theorem query_resolves_iff_witness :
    DripsSubgraphClient.query (⟨200, "OK", ⟨some 5, none⟩⟩ : HttpResponse Nat)
      = .ok (⟨some 5, none⟩ : GraphQlResponseBody Nat) :=
  ((query_resolves_iff (⟨200, "OK", ⟨some 5, none⟩⟩ : HttpResponse Nat)).1).mpr
    (by refine ⟨by decide, by decide, Or.inl rfl⟩)

/-- The `dripsSetEvent` reference carried by a `DripsReceiverSeenEvent` DTO,
restricted to the field `getSqueezableSenders` reads. -/
structure SeenEventDripsSet where
  assetId : Nat
deriving DecidableEq

/-- A `DripsReceiverSeenEvent` DTO (`src/DripsSubgraph/types.ts`),
restricted to the fields `getSqueezableSenders` reads. -/
structure DripsReceiverSeenEvent where
  senderUserId : Nat
  dripsSetEvent : SeenEventDripsSet
deriving DecidableEq

/-- `bigint.prototype.toString()`: the decimal representation. -/
def bigintToString (n : Nat) : String := String.mk (natToDecimalChars n)

/-- `squeezableSenders[sender].push(asset)` on a JavaScript record embedded
as an association list in key-insertion order. -/
def pushAsset : List (String × List String) → String → String → List (String × List String)
  | [], _, _ => []
  | (k, v) :: rest, sender, asset =>
    if k = sender then (k, v ++ [asset]) :: rest
    else (k, v) :: pushAsset rest sender asset

/-- The loop of `getSqueezableSenders`
(`src/DripsSubgraph/DripsSubgraphClient.ts`): `processed` mirrors
`processedSenders` (a record of booleans, i.e. a set of keys) and `acc`
mirrors `squeezableSenders`. -/
def squeezableSendersLoop :
    List DripsReceiverSeenEvent → List String → List (String × List String)
      → List (String × List String)
  | [], _, acc => acc
  | ev :: rest, processed, acc =>
    let sender := bigintToString ev.senderUserId
    if sender ∈ processed then squeezableSendersLoop rest processed acc
    else
      let acc1 := if acc.lookup sender = none then acc ++ [(sender, [])] else acc
      let acc2 := pushAsset acc1 sender (bigintToString ev.dripsSetEvent.assetId)
      squeezableSendersLoop rest (sender :: processed) acc2

/-- `getSqueezableSenders`, with the subgraph fetch abstracted into the
events input (its early return on an empty result coincides with the loop
on `[]`).  The returned record is embedded as an association list with
unique keys. -/
def getSqueezableSenders (dripsReceiverSeenEvents : List DripsReceiverSeenEvent) :
    List (String × List String) :=
  squeezableSendersLoop dripsReceiverSeenEvents [] []

theorem pushAsset_append_fresh (l : List (String × List String)) (k : String)
    (v : List String) (asset : String) (hk : l.lookup k = none) :
    pushAsset (l ++ [(k, v)]) k asset = l ++ [(k, v ++ [asset])] := by
  induction l with
  | nil => simp [pushAsset]
  | cons p rest ih =>
    obtain ⟨k', v'⟩ := p
    cases hbe : (k == k') with
    | true =>
      simp only [List.lookup_cons, hbe] at hk
      cases hk
    | false =>
      simp only [List.lookup_cons, hbe] at hk
      have hne : ¬ k' = k := by
        intro h
        rw [h] at hbe
        simp at hbe
      show pushAsset ((k', v') :: (rest ++ [(k, v)])) k asset
          = (k', v') :: (rest ++ [(k, v ++ [asset])])
      simp only [pushAsset]
      rw [if_neg hne, ih hk]

theorem squeezableSendersLoop_spec (events : List DripsReceiverSeenEvent) :
    ∀ (processed : List String) (acc : List (String × List String)),
      (∀ s, (acc.lookup s).isSome ↔ s ∈ processed) →
      (acc.map Prod.fst).Nodup →
      ((squeezableSendersLoop events processed acc).map Prod.fst).Nodup
      ∧ ∀ s, (squeezableSendersLoop events processed acc).lookup s
          = if s ∈ processed then acc.lookup s
            else (events.find? (fun ev => bigintToString ev.senderUserId == s)).map
              (fun ev => [bigintToString ev.dripsSetEvent.assetId]) := by
  induction events with
  | nil =>
    intro processed acc hinv hnd
    refine ⟨hnd, ?_⟩
    intro s
    by_cases hs : s ∈ processed
    · rw [if_pos hs]
      rfl
    · rw [if_neg hs]
      have h1 : ¬ (acc.lookup s).isSome := fun h => hs ((hinv s).mp h)
      rw [Option.not_isSome_iff_eq_none] at h1
      show acc.lookup s = none
      exact h1
  | cons ev rest ih =>
    intro processed acc hinv hnd
    by_cases hmem : bigintToString ev.senderUserId ∈ processed
    · have hloop : squeezableSendersLoop (ev :: rest) processed acc
          = squeezableSendersLoop rest processed acc := by
        simp only [squeezableSendersLoop]
        rw [if_pos hmem]
      rw [hloop]
      obtain ⟨hnd', hspec⟩ := ih processed acc hinv hnd
      refine ⟨hnd', ?_⟩
      intro s
      rw [hspec s]
      by_cases hs : s ∈ processed
      · rw [if_pos hs, if_pos hs]
      · rw [if_neg hs, if_neg hs]
        have hnep : ¬ (bigintToString ev.senderUserId == s) = true := by
          simp only [beq_iff_eq]
          intro heq
          rw [heq] at hmem
          exact hs hmem
        have hfind : List.find? (fun ev2 => bigintToString ev2.senderUserId == s) (ev :: rest)
            = List.find? (fun ev2 => bigintToString ev2.senderUserId == s) rest :=
          List.find?_cons_of_neg rest hnep
        rw [hfind]
    · have hsome : ¬ (acc.lookup (bigintToString ev.senderUserId)).isSome :=
        fun h => hmem ((hinv _).mp h)
      rw [Option.not_isSome_iff_eq_none] at hsome
      have hloop : squeezableSendersLoop (ev :: rest) processed acc
          = squeezableSendersLoop rest (bigintToString ev.senderUserId :: processed)
              (acc ++ [(bigintToString ev.senderUserId,
                [bigintToString ev.dripsSetEvent.assetId])]) := by
        simp only [squeezableSendersLoop]
        rw [if_neg hmem, if_pos hsome,
          pushAsset_append_fresh acc _ _ _ hsome]
        rfl
      rw [hloop]
      have hkeys : bigintToString ev.senderUserId ∉ acc.map Prod.fst := by
        intro hk
        rcases List.mem_map.mp hk with ⟨p, hp, hfst⟩
        have h2 := List.lookup_eq_none_iff.mp hsome p hp
        rw [hfst] at h2
        simp at h2
      have hinv' : ∀ s, ((acc ++ [(bigintToString ev.senderUserId,
            [bigintToString ev.dripsSetEvent.assetId])]).lookup s).isSome
          ↔ s ∈ bigintToString ev.senderUserId :: processed := by
        intro s
        rw [List.lookup_append]
        by_cases hseq : s = bigintToString ev.senderUserId
        · subst hseq
          rw [hsome]
          simp
        · have hnone : ([(bigintToString ev.senderUserId,
              [bigintToString ev.dripsSetEvent.assetId])].lookup s) = none := by
            rw [List.lookup_eq_none_iff]
            intro p hp
            rw [List.mem_singleton.mp hp]
            exact bne_iff_ne.mpr hseq
          rw [hnone, Option.or_none, hinv s]
          constructor
          · exact fun h => List.mem_cons_of_mem _ h
          · intro h
            rcases List.mem_cons.mp h with h1 | h2
            · exact absurd h1 hseq
            · exact h2
      have hnd' : ((acc ++ [(bigintToString ev.senderUserId,
            [bigintToString ev.dripsSetEvent.assetId])]).map Prod.fst).Nodup := by
        rw [List.map_append, List.nodup_append]
        refine ⟨hnd, by simp, ?_⟩
        intro a ha hb
        have hab : a = bigintToString ev.senderUserId := by simpa using hb
        rw [hab] at ha
        exact hkeys ha
      obtain ⟨hnd'', hspec⟩ := ih _ _ hinv' hnd'
      refine ⟨hnd'', ?_⟩
      intro s
      rw [hspec s]
      by_cases hseq : s = bigintToString ev.senderUserId
      · subst hseq
        rw [if_pos (List.mem_cons_self _ _), if_neg hmem,
          List.lookup_append, hsome, Option.none_or, List.lookup_cons_self,
          List.find?_cons_of_pos _ (by simp)]
        rfl
      · by_cases hs : s ∈ processed
        · rw [if_pos (List.mem_cons_of_mem _ hs), if_pos hs, List.lookup_append]
          have hnone : ([(bigintToString ev.senderUserId,
              [bigintToString ev.dripsSetEvent.assetId])].lookup s) = none := by
            rw [List.lookup_eq_none_iff]
            intro p hp
            rw [List.mem_singleton.mp hp]
            exact bne_iff_ne.mpr hseq
          rw [hnone, Option.or_none]
        · have hsmem : s ∉ bigintToString ev.senderUserId :: processed := by
            intro h
            rcases List.mem_cons.mp h with h1 | h2
            · exact hseq h1
            · exact hs h2
          rw [if_neg hsmem, if_neg hs]
          have hnep : ¬ (bigintToString ev.senderUserId == s) = true := by
            simp only [beq_iff_eq]
            intro heq
            exact hseq heq.symm
          have hfind : List.find? (fun ev2 => bigintToString ev2.senderUserId == s) (ev :: rest)
              = List.find? (fun ev2 => bigintToString ev2.senderUserId == s) rest :=
            List.find?_cons_of_neg rest hnep
          rw [hfind]

/-- Claim C10: `getSqueezableSenders` maps each sender ID occurring in the
events to exactly the one-element list holding the asset of that sender's
first event, even when the sender has events for several assets; each
sender ID is a key at most once. -/
theorem getSqueezableSenders_spec (dripsReceiverSeenEvents : List DripsReceiverSeenEvent) :
    ((getSqueezableSenders dripsReceiverSeenEvents).map Prod.fst).Nodup
    ∧ ∀ s : String,
        (getSqueezableSenders dripsReceiverSeenEvents).lookup s
          = (dripsReceiverSeenEvents.find?
                (fun ev => bigintToString ev.senderUserId == s)).map
              (fun ev => [bigintToString ev.dripsSetEvent.assetId]) := by
  obtain ⟨hnd, hspec⟩ := squeezableSendersLoop_spec dripsReceiverSeenEvents [] []
    (by intro s; simp) (by simp)
  refine ⟨hnd, ?_⟩
  intro s
  rw [show getSqueezableSenders dripsReceiverSeenEvents
      = squeezableSendersLoop dripsReceiverSeenEvents [] [] from rfl, hspec s,
    if_neg (List.not_mem_nil s)]

theorem getSqueezableSenders_spec_witness :
    ((getSqueezableSenders [⟨5, ⟨100⟩⟩, ⟨5, ⟨200⟩⟩, ⟨6, ⟨300⟩⟩]).map Prod.fst).Nodup
    ∧ ∀ s : String,
        (getSqueezableSenders [⟨5, ⟨100⟩⟩, ⟨5, ⟨200⟩⟩, ⟨6, ⟨300⟩⟩]).lookup s
          = (([⟨5, ⟨100⟩⟩, ⟨5, ⟨200⟩⟩, ⟨6, ⟨300⟩⟩] : List DripsReceiverSeenEvent).find?
                (fun ev => bigintToString ev.senderUserId == s)).map
              (fun ev => [bigintToString ev.dripsSetEvent.assetId]) :=
  getSqueezableSenders_spec [⟨5, ⟨100⟩⟩, ⟨5, ⟨200⟩⟩, ⟨6, ⟨300⟩⟩]
